import Mathlib

/-!
# Verification of the jsmnreader JSON tokenizer and flat-tree navigator

Shallow embedding of `jsmnreader.h` (JSMN Reader v1.0): the two-pass jsmn
tokenizer (`jsmn_parse` in sizing and fill mode), the document loader
`jsmnreader_load`, the escape-processing extractor `jsmnreader_extract`,
the typed accessors, the subtree-skip walker `jsmnreader_dataskip`, the
path navigator `jsmnreader_tree_get_x` and the two child enumerators.

Modelling conventions:
* C buffers are `List Char`; reads use a total getter with the C string
  terminator `'\x00'` as the out-of-bounds default, and token reads use an
  `UNDEFINED` token as default.
* `unsigned int` results that the C code sets to `-1` are modelled as the
  Nat 4294967295.
* `jsmnreader_load` first reallocates the token buffer to size 0; under
  glibc `realloc(p,0)` returns `NULL`, so its sizing pass is jsmn's
  `tokens == NULL` counting path (`countLoop` below), while the second pass
  runs with a real array (`fillLoop`).
* Loops whose C termination argument is a strictly advancing cursor are
  modelled with an explicit fuel argument; fuel exhaustion yields the
  sentinel code `-99`, which no C path produces, and callers pass fuel
  larger than the number of iterations the C loop can make.
-/

/-- jsmn token types (`jsmntype_t`). -/
inductive JType where
  | UNDEFINED
  | OBJECT
  | ARRAY
  | STRING
  | PRIMITIVE
deriving DecidableEq, Repr

/-- A jsmn token (`jsmntok_t`): type, byte span, immediate child count.
`start`/`end_` are `Int` because the parser initialises them to `-1`. -/
structure Tok where
  type : JType
  start : Int
  end_ : Int
  size : Nat
deriving DecidableEq, Repr

/-- Out-of-bounds token read default (fresh-token shape of the C pool). -/
def tokDefault : Tok := ⟨JType.UNDEFINED, 0, 0, 0⟩

/-- Total token-array read. -/
def tokGet (toks : List Tok) (i : Nat) : Tok := toks.getD i tokDefault

/-- Total byte-buffer read; out of bounds reads the C string terminator. -/
def chGet (txt : List Char) (i : Nat) : Char := txt.getD i '\x00'

/-- `tokens[i].size++`. -/
def bumpSize (toks : List Tok) (i : Nat) : List Tok :=
  toks.set i { tokGet toks i with size := (tokGet toks i).size + 1 }

/-- `tokens[i].end = e`. -/
def setEnd (toks : List Tok) (i : Nat) (e : Int) : List Tok :=
  toks.set i { tokGet toks i with end_ := e }

/-- A token that has been opened but not yet closed
(`start != -1 && end == -1`). -/
def tokIsOpen (t : Tok) : Bool := t.start != -1 && t.end_ == -1

/-- Backward scan `for (i = from; i >= 0; i--)` for the innermost open
token, as in the `}`/`]` handler of `jsmn_parse`. -/
def lastOpenAt (toks : List Tok) : Nat → Option Nat
  | 0 => if tokIsOpen (tokGet toks 0) then some 0 else none
  | i + 1 => if tokIsOpen (tokGet toks (i + 1)) then some (i + 1) else lastOpenAt toks i

/-- Backward scan for the innermost open container (`,` handler). -/
def lastOpenContAt (toks : List Tok) : Nat → Option Nat
  | 0 =>
    if ((tokGet toks 0).type = JType.ARRAY ∨ (tokGet toks 0).type = JType.OBJECT) ∧
        tokIsOpen (tokGet toks 0) then some 0 else none
  | i + 1 =>
    if ((tokGet toks (i + 1)).type = JType.ARRAY ∨ (tokGet toks (i + 1)).type = JType.OBJECT) ∧
        tokIsOpen (tokGet toks (i + 1)) then some (i + 1) else lastOpenContAt toks i

/-- Character classes driving the `switch` of `jsmn_parse`'s main loop. -/
inductive CKind where
  | openB (isObj : Bool)
  | closeB (isObj : Bool)
  | quoteC
  | wsC
  | colonC
  | commaC
  | primC
  | badC
deriving DecidableEq, Repr

/-- The `switch (c)` of `jsmn_parse`. -/
def cclass (c : Char) : CKind :=
  if c = '\x7b' then CKind.openB true
  else if c = '[' then CKind.openB false
  else if c = '\x7d' then CKind.closeB true
  else if c = ']' then CKind.closeB false
  else if c = '\"' then CKind.quoteC
  else if c = '\t' ∨ c = '\r' ∨ c = '\n' ∨ c = ' ' then CKind.wsC
  else if c = ':' then CKind.colonC
  else if c = ',' then CKind.commaC
  else if c = '-' ∨ ('0' ≤ c ∧ c ≤ '9') ∨ c = 't' ∨ c = 'f' ∨ c = 'n' then CKind.primC
  else CKind.badC

/-- Hex digit test of `jsmn_parse_string`'s `\uXXXX` validator. -/
def isHexDigit (c : Char) : Bool :=
  (48 ≤ c.toNat && c.toNat ≤ 57) || (65 ≤ c.toNat && c.toNat ≤ 70) ||
    (97 ≤ c.toNat && c.toNat ≤ 102)

/-- The `\uXXXX` sub-loop: validate up to 4 hex digits starting at `q`
(stopping early at end of buffer or NUL); returns the number of digits
consumed, or `none` on a non-hex character (`JSMN_ERROR_INVAL`). -/
def scanHex (js : List Char) (q : Nat) : Nat → Option Nat
  | 0 => some 0
  | i + 1 =>
    if q < js.length ∧ chGet js q ≠ '\x00' then
      if isHexDigit (chGet js q) then
        match scanHex js (q + 1) i with
        | none => none
        | some k => some (k + 1)
      else none
    else some 0

/-- String scan of `jsmn_parse_string`, starting just after the opening
quote. Returns the index of the closing quote, `-2` (`JSMN_ERROR_INVAL`)
on a bad escape, `-3` (`JSMN_ERROR_PART`) at end of input. Every step
advances the position, so any fuel above `js.length` is enough; fuel
exhaustion yields the out-of-model `-99`. -/
def scanStrFuel (js : List Char) : Nat → Nat → Except Int Nat
  | 0, _ => Except.error (-99)
  | fuel + 1, p =>
    if p < js.length ∧ chGet js p ≠ '\x00' then
      if chGet js p = '\"' then Except.ok p
      else if chGet js p = '\\' ∧ p + 1 < js.length then
        if chGet js (p + 1) = '\"' ∨ chGet js (p + 1) = '/' ∨ chGet js (p + 1) = '\\' ∨
            chGet js (p + 1) = 'b' ∨ chGet js (p + 1) = 'f' ∨ chGet js (p + 1) = 'r' ∨
            chGet js (p + 1) = 'n' ∨ chGet js (p + 1) = 't' then
          scanStrFuel js fuel (p + 2)
        else if chGet js (p + 1) = 'u' then
          match scanHex js (p + 2) 4 with
          | none => Except.error (-2)
          | some k => scanStrFuel js fuel (p + 2 + k)
        else Except.error (-2)
      else scanStrFuel js fuel (p + 1)
    else Except.error (-3)

/-- `jsmn_parse_string`'s scan with adequate fuel. -/
def scanStrGo (js : List Char) (p : Nat) : Except Int Nat :=
  scanStrFuel js (js.length + 1) p

/-- Primitive scan of `jsmn_parse_primitive`, starting at the first
character. Returns the index of the terminating separator, `-2` on a
control or non-ASCII character, `-3` at end of input. Fuel as in
`scanStrFuel`. -/
def scanPrimFuel (js : List Char) : Nat → Nat → Except Int Nat
  | 0, _ => Except.error (-99)
  | fuel + 1, p =>
    if p < js.length ∧ chGet js p ≠ '\x00' then
      if chGet js p = '\t' ∨ chGet js p = '\r' ∨ chGet js p = '\n' ∨ chGet js p = ' ' ∨
          chGet js p = ',' ∨ chGet js p = ']' ∨ chGet js p = '\x7d' then
        Except.ok p
      else if (chGet js p).toNat < 32 ∨ 127 ≤ (chGet js p).toNat then Except.error (-2)
      else scanPrimFuel js fuel (p + 1)
    else Except.error (-3)

/-- `jsmn_parse_primitive`'s scan with adequate fuel. -/
def scanPrimGo (js : List Char) (p : Nat) : Except Int Nat :=
  scanPrimFuel js (js.length + 1) p

/-- Fill-mode main loop of `jsmn_parse` (`tokens != NULL`): state is the
cursor `pos`, the current superior token `super` (`toksuper`, `-1` for
none) and the token array built so far; `cap` is `num_tokens`. Returns
the C return value paired with the token array at that moment (the C
code leaves the partially filled array in place on error). -/
def fillLoop (js : List Char) (cap : Nat) :
    Nat → Nat → Int → List Tok → Int × List Tok
  | 0, _, _, toks => ((-99 : Int), toks)
  | fuel + 1, pos, super, toks =>
    if pos < js.length ∧ chGet js pos ≠ '\x00' then
      match cclass (chGet js pos) with
      | CKind.openB isObj =>
        if cap ≤ toks.length then ((-1 : Int), toks)
        else if 0 ≤ super ∧ (tokGet toks super.toNat).type = JType.OBJECT then
          ((-2 : Int), toks)
        else
          let toks1 := if 0 ≤ super then bumpSize toks super.toNat else toks
          let toks2 := toks1 ++
            [⟨if isObj then JType.OBJECT else JType.ARRAY, (pos : Int), -1, 0⟩]
          fillLoop js cap fuel (pos + 1) (toks.length : Int) toks2
      | CKind.closeB isObj =>
        match lastOpenAt toks (toks.length - 1) with
        | none => ((-2 : Int), toks)
        | some i =>
          if (tokGet toks i).type ≠ (if isObj then JType.OBJECT else JType.ARRAY) then
            ((-2 : Int), toks)
          else
            let toks1 := setEnd toks i ((pos : Int) + 1)
            let super' : Int :=
              match lastOpenAt toks1 i with
              | none => -1
              | some j => (j : Int)
            fillLoop js cap fuel (pos + 1) super' toks1
      | CKind.quoteC =>
        match scanStrGo js (pos + 1) with
        | Except.error e => (e, toks)
        | Except.ok q =>
          if cap ≤ toks.length then ((-1 : Int), toks)
          else
            let toks1 := toks ++ [⟨JType.STRING, (pos : Int) + 1, (q : Int), 0⟩]
            let toks2 := if 0 ≤ super then bumpSize toks1 super.toNat else toks1
            fillLoop js cap fuel (q + 1) super toks2
      | CKind.wsC => fillLoop js cap fuel (pos + 1) super toks
      | CKind.colonC => fillLoop js cap fuel (pos + 1) ((toks.length : Int) - 1) toks
      | CKind.commaC =>
        let super' : Int :=
          if 0 ≤ super ∧ (tokGet toks super.toNat).type ≠ JType.ARRAY ∧
              (tokGet toks super.toNat).type ≠ JType.OBJECT then
            match lastOpenContAt toks (toks.length - 1) with
            | none => super
            | some j => (j : Int)
          else super
        fillLoop js cap fuel (pos + 1) super' toks
      | CKind.primC =>
        if 0 ≤ super ∧ ((tokGet toks super.toNat).type = JType.OBJECT ∨
            ((tokGet toks super.toNat).type = JType.STRING ∧
              (tokGet toks super.toNat).size ≠ 0)) then
          ((-2 : Int), toks)
        else
          match scanPrimGo js pos with
          | Except.error e => (e, toks)
          | Except.ok q =>
            if cap ≤ toks.length then ((-1 : Int), toks)
            else
              let toks1 := toks ++ [⟨JType.PRIMITIVE, (pos : Int), (q : Int), 0⟩]
              let toks2 := if 0 ≤ super then bumpSize toks1 super.toNat else toks1
              fillLoop js cap fuel q super toks2
      | CKind.badC => ((-2 : Int), toks)
    else
      (if toks.any tokIsOpen then (-3 : Int) else (toks.length : Int), toks)

/-- Sizing-mode main loop of `jsmn_parse` (`tokens == NULL`): only the
cursor and the running `count` survive; no superior tracking, no
validation beyond the shared scanners and the illegal-character case. -/
def countLoop (js : List Char) : Nat → Nat → Nat → Int
  | 0, _, _ => (-99 : Int)
  | fuel + 1, pos, cnt =>
    if pos < js.length ∧ chGet js pos ≠ '\x00' then
      match cclass (chGet js pos) with
      | CKind.openB _ => countLoop js fuel (pos + 1) (cnt + 1)
      | CKind.closeB _ => countLoop js fuel (pos + 1) cnt
      | CKind.quoteC =>
        match scanStrGo js (pos + 1) with
        | Except.error e => e
        | Except.ok q => countLoop js fuel (q + 1) (cnt + 1)
      | CKind.wsC => countLoop js fuel (pos + 1) cnt
      | CKind.colonC => countLoop js fuel (pos + 1) cnt
      | CKind.commaC => countLoop js fuel (pos + 1) cnt
      | CKind.primC =>
        match scanPrimGo js pos with
        | Except.error e => e
        | Except.ok q => countLoop js fuel q (cnt + 1)
      | CKind.badC => (-2 : Int)
    else (cnt : Int)

/-- `jsmn_parse` in fill mode on a fresh parser: C return value and the
token array (partial on error, exactly the produced tokens on success). -/
def jsmn_parse_fill (js : List Char) (cap : Nat) : Int × List Tok :=
  fillLoop js cap (js.length + 1) 0 (-1) []

/-- `jsmn_parse` in sizing mode (`tokens == NULL`) on a fresh parser:
the token count, or a negative error code. -/
def jsmn_parse_count (js : List Char) : Int :=
  countLoop js (js.length + 1) 0 0

/-- The reader object (`jsmnreader_obj`): the owned text buffer and the
token sequence (`tokens_count` is the list length). -/
structure Reader where
  txt : List Char
  tokens : List Tok
deriving DecidableEq, Repr

/-- `jsmnreader_load`: sizing pass with the NULL token buffer, then an
exactly-sized fill pass. On `JSMN_ERROR_INVAL`/`JSMN_ERROR_PART` the
token store is reset to empty; on `JSMN_ERROR_NOMEM` it is left as the
fill pass left it (the C code returns without resetting). Returns the C
return value and the reader afterwards. The final branch is the fuel
artifact and is unreachable.

The capacity handed to the fill pass: the sizing count when it
succeeded, else the stale initial `tokens_count = 2`. -/
def loadCapacity (js : List Char) : Nat :=
  if 0 ≤ jsmn_parse_count js then (jsmn_parse_count js).toNat else 2

/-- The fill pass of `jsmnreader_load`. -/
def loadFill (js : List Char) : Int × List Tok :=
  jsmn_parse_fill js (loadCapacity js)

/-- `jsmnreader_load` result assembly from the fill pass outcome. -/
def jsmnreader_load (js : List Char) : Int × Reader :=
  if (loadFill js).1 = -1 then (-1, ⟨js, (loadFill js).2⟩)
  else if (loadFill js).1 = -2 then (-2, ⟨js, []⟩)
  else if (loadFill js).1 = -3 then (-3, ⟨js, []⟩)
  else if 0 ≤ (loadFill js).1 then (0, ⟨js, (loadFill js).2⟩)
  else (-99, ⟨js, (loadFill js).2⟩)

/-- `jsmnreader_extract` character loop: copies `txt[start..end)` into a
fresh buffer, handling a backslash by emitting the following character
when it is `\` or `"` (and nothing otherwise) and skipping both. -/
def extractFuel (txt : List Char) : Nat → Nat → Nat → List Char
  | 0, _, _ => []
  | fuel + 1, r, e =>
    if r < e then
      if chGet txt r ≠ '\\' then chGet txt r :: extractFuel txt fuel (r + 1) e
      else
        (if chGet txt (r + 1) = '\\' ∨ chGet txt (r + 1) = '\"' then [chGet txt (r + 1)]
          else []) ++ extractFuel txt fuel (r + 2) e
    else []

/-- The copy loop with adequate fuel (it advances `r` every step, so
`e + 1` iterations always finish). -/
def extractGo (txt : List Char) (r e : Nat) : List Char :=
  extractFuel txt (e + 1) r e

/-- `jsmnreader_extract`. -/
def jsmnreader_extract (start end_ : Nat) (reader : Reader) : List Char :=
  extractGo reader.txt start end_

/-- Extracted text of token `i` (the `jsmnreader_extract(start, end, …)`
call pattern shared by the accessors and the navigator). -/
def tokText (reader : Reader) (i : Nat) : List Char :=
  jsmnreader_extract (tokGet reader.tokens i).start.toNat (tokGet reader.tokens i).end_.toNat
    reader

/-- C `isspace` for the `strtol` model. -/
def isSpaceC (c : Char) : Bool :=
  c = ' ' || c = '\t' || c = '\n' || c = '\x0b' || c = '\x0c' || c = '\r'

/-- Digit-run accumulator of `strtol`: consumes leading decimal digits. -/
def strtolDigits : List Char → Nat → Nat
  | [], acc => acc
  | c :: rest, acc =>
    if '0' ≤ c ∧ c ≤ '9' then strtolDigits rest (acc * 10 + (c.toNat - 48)) else acc

/-- The exact mathematical value read by base-10
`strtol(s, NULL, 10)`: skip spaces, optional sign, digit run; no digits
yields 0. Width limits are applied separately (`strtolLongC`,
`wrapInt32`). -/
def strtolModel (s : List Char) : Int :=
  match s.dropWhile isSpaceC with
  | [] => 0
  | c :: rest =>
    if c = '-' then -(strtolDigits rest 0 : Int)
    else if c = '+' then (strtolDigits rest 0 : Int)
    else (strtolDigits (c :: rest) 0 : Int)

/-- `strtol` returns a `long`: on overflow it saturates to
`LONG_MAX`/`LONG_MIN` (LP64 glibc, the platform convention of this
embedding — see `jsmnreader_load`'s `realloc` note). -/
def strtolLongC (s : List Char) : Int :=
  if 9223372036854775807 < strtolModel s then 9223372036854775807
  else if strtolModel s < -9223372036854775808 then -9223372036854775808
  else strtolModel s

/-- The `long` → `int` narrowing of `num = strtol(raw_str, NULL, 10)`:
gcc's implementation-defined behaviour is two's-complement wrap to 32
bits. -/
def wrapInt32 (n : Int) : Int :=
  if 2147483648 ≤ n % 4294967296 then n % 4294967296 - 4294967296 else n % 4294967296

/-- `jsmnreader_token_get_int`: `strtol` of the extracted text of a
`PRIMITIVE` token narrowed to `int`, with exact text `true` overridden
to 1; 0 on any failure. -/
def jsmnreader_token_get_int (index : Nat) (reader : Reader) : Int :=
  if 0 < reader.tokens.length ∧ index < reader.tokens.length ∧
      (tokGet reader.tokens index).type = JType.PRIMITIVE then
    let raw := tokText reader index
    if raw = "true".toList then 1 else wrapInt32 (strtolLongC raw)
  else 0

/-- `jsmnreader_token_get_string`: extracted text of a `STRING` or
`PRIMITIVE` token, and the blank string on failure. -/
def jsmnreader_token_get_string (index : Nat) (reader : Reader) : List Char :=
  if 0 < reader.tokens.length ∧ index < reader.tokens.length ∧
      ((tokGet reader.tokens index).type = JType.STRING ∨
        (tokGet reader.tokens index).type = JType.PRIMITIVE) then
    tokText reader index
  else []

/-- `jsmnreader_token_get_object`: echoes the index when it denotes an
`OBJECT` token, unsigned `-1` = 4294967295 otherwise. -/
def jsmnreader_token_get_object (index : Nat) (reader : Reader) : Nat :=
  if 0 < reader.tokens.length ∧ index < reader.tokens.length ∧
      (tokGet reader.tokens index).type = JType.OBJECT then index
  else 4294967295

/-- `jsmnreader_token_get_array`: likewise for `ARRAY` tokens. -/
def jsmnreader_token_get_array (index : Nat) (reader : Reader) : Nat :=
  if 0 < reader.tokens.length ∧ index < reader.tokens.length ∧
      (tokGet reader.tokens index).type = JType.ARRAY then index
  else 4294967295

/-- `jsmnreader_tree_parsepath` accumulator: split on `\`, segments may
be empty. -/
def parsepathGo : List Char → List Char → List (List Char)
  | [], acc => [acc.reverse]
  | c :: rest, acc =>
    if c = '\\' then acc.reverse :: parsepathGo rest []
    else parsepathGo rest (c :: acc)

/-- `jsmnreader_tree_parsepath`: the empty path has zero segments. -/
def jsmnreader_tree_parsepath (mypath : List Char) : List (List Char) :=
  if mypath = [] then [] else parsepathGo mypath []

/-- `jsmnreader_dataskip` loop: `r` walks the immediate children of a
container (`mode = 0` object: key/value pairs, checking the value's type
one slot ahead; `mode = 1` array: elements in place) until `objs_sub`
children are consumed, recursing through nested containers. Fuel bounds
the loop plus recursion; each step advances `r`, so any fuel above the
token count is enough. -/
def dataskipLoop (toks : List Tok) : Nat → Nat → Nat → Nat → Nat
  | 0, r, _, _ => r
  | fuel + 1, r, objs, mode =>
    if r < toks.length ∧ 0 < objs then
      match (tokGet toks (r + (if mode = 0 then 1 else 0))).type with
      | JType.OBJECT =>
        let rc := if mode = 0 then r + 1 else r
        dataskipLoop toks fuel
          (dataskipLoop toks fuel (rc + 1) (tokGet toks rc).size 0) (objs - 1) mode
      | JType.ARRAY =>
        let rc := if mode = 0 then r + 1 else r
        dataskipLoop toks fuel
          (dataskipLoop toks fuel (rc + 1) (tokGet toks rc).size 1) (objs - 1) mode
      | _ => dataskipLoop toks fuel (if mode = 1 then r + 1 else r + 2) (objs - 1) mode
    else r

/-- `jsmnreader_dataskip` on the container at `r`: advances past its
whole subtree. -/
def jsmnreader_dataskip (toks : List Tok) (r : Nat) (mode : Nat) : Nat :=
  dataskipLoop toks (toks.length + 1) (r + 1) (tokGet toks r).size mode

/-- Walker state of `jsmnreader_tree_get_x`: child cursor `r`, path
segment cursor `i`, current scope `offset`, remaining children `objs`. -/
structure TState where
  r : Nat
  i : Nat
  offset : Nat
  objs : Nat
deriving DecidableEq, Repr

/-- One step of the `jsmnreader_tree_get_x` loop either continues with a
new state or halts with `some` found index / `none` for not-found. -/
inductive StepRes where
  | cont (st : TState)
  | halt (loc : Option Nat)
deriving DecidableEq, Repr

/-- The `selected_token` test: the current path segment compares equal
to the extracted text of the token at `r`. -/
def treeSelected (reader : Reader) (plist : List (List Char)) (st : TState) : Bool :=
  decide (0 < plist.length ∧ st.i < plist.length ∧ plist.getD st.i [] = tokText reader st.r)

/-- One iteration of `jsmnreader_tree_get_x`'s walk, switching on the
type of the token one slot after `r` (the would-be value). -/
def treeStep (reader : Reader) (plist : List (List Char)) (st : TState) : StepRes :=
  let sel := treeSelected reader plist st
  match (tokGet reader.tokens (st.r + 1)).type with
  | JType.UNDEFINED => StepRes.halt none
  | JType.PRIMITIVE =>
    if sel then StepRes.halt (some (st.r + 1))
    else StepRes.cont { st with r := st.r + 2, objs := st.objs - 1 }
  | JType.STRING =>
    if sel then StepRes.halt (some (st.r + 1))
    else StepRes.cont { st with r := st.r + 2, objs := st.objs - 1 }
  | JType.OBJECT =>
    if sel then
      if st.i = plist.length - 1 then StepRes.halt (some (st.r + 1))
      else
        StepRes.cont
          { r := st.r + 2,
            i := if st.i + 1 > plist.length - 1 then plist.length - 1 else st.i + 1,
            offset := st.r + 1,
            objs := (tokGet reader.tokens (st.r + 1)).size }
    else
      StepRes.cont
        { st with r := jsmnreader_dataskip reader.tokens (st.r + 1) 0, objs := st.objs - 1 }
  | JType.ARRAY =>
    if sel then
      if st.i = plist.length - 1 then StepRes.halt (some (st.r + 1))
      else StepRes.halt none
    else
      StepRes.cont
        { st with r := jsmnreader_dataskip reader.tokens (st.r + 1) 1, objs := st.objs - 1 }

/-- The `while (objs > 0 && r < tokens_count)` driver of
`jsmnreader_tree_get_x`. Each continuing step advances `r`, so fuel
above the token count is enough. -/
def treeLoop (reader : Reader) (plist : List (List Char)) : Nat → TState → Option Nat
  | 0, _ => none
  | fuel + 1, st =>
    if 0 < st.objs ∧ st.r < reader.tokens.length then
      match treeStep reader plist st with
      | StepRes.halt l => l
      | StepRes.cont st' => treeLoop reader plist fuel st'
    else none

/-- `jsmnreader_tree_get_x`. Note the invalid-offset path returns 0 as
in the C source, while a finished walk without a hit returns the
unsigned `-1` = 4294967295. -/
def jsmnreader_tree_get_x (mypath : List Char) (offset : Nat) (reader : Reader) : Nat :=
  if 0 < reader.tokens.length ∧ offset < reader.tokens.length ∧
      ((tokGet reader.tokens offset).type = JType.OBJECT ∨
        (tokGet reader.tokens offset).type = JType.ARRAY) then
    let plist := jsmnreader_tree_parsepath mypath
    match treeLoop reader plist (reader.tokens.length + 1)
        ⟨offset + 1, 0, offset, (tokGet reader.tokens offset).size⟩ with
    | some loc => loc
    | none => 4294967295
  else 0

/-- `jsmnreader_token_array_tokens` loop: one entry per immediate
element of the array, skipping nested subtrees; `objs` decreases every
iteration. -/
def arrayTokensLoop (toks : List Tok) : Nat → Nat → List Nat
  | 0, _ => []
  | objs + 1, r =>
    if r < toks.length then
      match (tokGet toks r).type with
      | JType.STRING => r :: arrayTokensLoop toks objs (r + 1)
      | JType.PRIMITIVE => r :: arrayTokensLoop toks objs (r + 1)
      | JType.OBJECT => r :: arrayTokensLoop toks objs (jsmnreader_dataskip toks r 0)
      | JType.ARRAY => r :: arrayTokensLoop toks objs (jsmnreader_dataskip toks r 1)
      | JType.UNDEFINED => arrayTokensLoop toks objs r
    else []

/-- `jsmnreader_token_array_tokens`: the emitted index list (empty when
`offset` is not an `ARRAY` token). -/
def jsmnreader_token_array_tokens (offset : Nat) (reader : Reader) : List Nat :=
  if jsmnreader_token_get_array offset reader ≠ 4294967295 then
    arrayTokensLoop reader.tokens (tokGet reader.tokens offset).size (offset + 1)
  else []

/-- The three listing modes of `jsmnreader_token_object_tokens`
(`jsmnreaderobjread_t`). -/
inductive ObjRead where
  | BOTH
  | KEYONLY
  | ITEMONLY
deriving DecidableEq, Repr

/-- Entries recorded for the pair at `r` (key) / `r + 1` (value). -/
def objEmit (setting : ObjRead) (r : Nat) : List Nat :=
  (if setting = ObjRead.BOTH ∨ setting = ObjRead.KEYONLY then [r] else []) ++
    (if setting = ObjRead.BOTH ∨ setting = ObjRead.ITEMONLY then [r + 1] else [])

/-- `jsmnreader_token_object_tokens` loop over key/value pairs. The
function hardcodes the empty path, so `i == path_count` always holds and
every pair is recorded; `selected_token` is always false, so container
values are skipped whole. The `UNDEFINED` value case records without
advancing (the C loop spins there; fuel totalises it). -/
def objectTokensLoop (toks : List Tok) (setting : ObjRead) :
    Nat → Nat → Nat → List Nat
  | 0, _, _ => []
  | fuel + 1, objs, r =>
    if 0 < objs ∧ r < toks.length then
      match (tokGet toks (r + 1)).type with
      | JType.UNDEFINED => objEmit setting r ++ objectTokensLoop toks setting fuel objs r
      | JType.PRIMITIVE =>
        objEmit setting r ++ objectTokensLoop toks setting fuel (objs - 1) (r + 2)
      | JType.STRING =>
        objEmit setting r ++ objectTokensLoop toks setting fuel (objs - 1) (r + 2)
      | JType.OBJECT =>
        objEmit setting r ++
          objectTokensLoop toks setting fuel (objs - 1) (jsmnreader_dataskip toks (r + 1) 0)
      | JType.ARRAY =>
        objEmit setting r ++
          objectTokensLoop toks setting fuel (objs - 1) (jsmnreader_dataskip toks (r + 1) 1)
    else []

/-- `jsmnreader_token_object_tokens`: the emitted index list (empty when
`offset` is not an `OBJECT` token). -/
def jsmnreader_token_object_tokens (offset : Nat) (setting : ObjRead) (reader : Reader) :
    List Nat :=
  if 0 < reader.tokens.length ∧ offset < reader.tokens.length ∧
      (tokGet reader.tokens offset).type = JType.OBJECT then
    objectTokensLoop reader.tokens setting (reader.tokens.length + 1)
      (tokGet reader.tokens offset).size (offset + 1)
  else []

/-! ## Concrete documents used by the claim theorems -/

/-- The buffer of the JSON document with a single numeric field. -/
def jsD1 : List Char := "\x7b\"a\":1\x7d".toList

/-- Loaded reader for `jsD1`. -/
def rdD1 : Reader := (jsmnreader_load jsD1).2

/-- A document whose key `a` holds an Array value containing the string
`b` and the number 1. -/
def jsD3a : List Char := "\x7b\"a\":[\"b\",1]\x7d".toList

/-- Loaded reader for `jsD3a`. -/
def rdD3a : Reader := (jsmnreader_load jsD3a).2

/-- The Object analogue of `jsD3a`: key `a` holds an Object with key `b`. -/
def jsD3b : List Char := "\x7b\"b\":1\x7d".toList ++ []

/-- A document whose key `a` holds an Object value with key `b`. -/
def jsD3c : List Char := "\x7b\"a\":\x7b\"b\":1\x7d\x7d".toList

/-- Loaded reader for `jsD3c`. -/
def rdD3c : Reader := (jsmnreader_load jsD3c).2

/-- A document whose string value contains the two-character escape
backslash-n in its source text. -/
def jsD4 : List Char := "\x7b\"k\":\"a\\nb\"\x7d".toList

/-- Loaded reader for `jsD4`. -/
def rdD4 : Reader := (jsmnreader_load jsD4).2

/-- The value-less-key document of the spec's error test. -/
def jsD5a : List Char := "\x7b\"a\":\x7d".toList

/-- The truncated document of the spec's error test. -/
def jsD5b : List Char := "\x7b\"a\":1".toList

/-- An input whose sizing pass fails (illegal character `x`) after more
than two tokens, driving the fill pass into `JSMN_ERROR_NOMEM`. -/
def jsD6 : List Char := "[1,2,x]".toList

/-- The two-pair object of the enumerator test. -/
def jsD8 : List Char := "\x7b\"a\":1,\"b\":2\x7d".toList

/-- Loaded reader for `jsD8`. -/
def rdD8 : Reader := (jsmnreader_load jsD8).2

/-- The mixed array of the enumerator test. -/
def jsD9 : List Char := "[1,\x7b\"x\":1\x7d,[2,3],4]".toList

/-- Loaded reader for `jsD9`. -/
def rdD9 : Reader := (jsmnreader_load jsD9).2

/-- A reader holding five primitive tokens with texts `true`, `false`,
`-5`, `null` and `5000000000` (spans into the backing text). -/
def rdC7 : Reader :=
  ⟨"true false -5 null 5000000000".toList,
    [⟨JType.PRIMITIVE, 0, 4, 0⟩, ⟨JType.PRIMITIVE, 5, 10, 0⟩,
      ⟨JType.PRIMITIVE, 11, 13, 0⟩, ⟨JType.PRIMITIVE, 14, 18, 0⟩,
      ⟨JType.PRIMITIVE, 19, 29, 0⟩]⟩

/-! ## Helper lemmas -/

theorem strtolDigits_of_head_not_digit :
    ∀ (s : List Char), (∀ c ∈ s.head?, ¬('0' ≤ c ∧ c ≤ '9')) → strtolDigits s 0 = 0 := by
  intro s h
  cases s with
  | nil => rfl
  | cons c rest =>
    simp only [List.head?_cons, Option.mem_some_iff] at h
    simp only [strtolDigits, if_neg (h c rfl)]

theorem strtolModel_no_digits (s : List Char) (h : ∀ c ∈ s, ¬('0' ≤ c ∧ c ≤ '9')) :
    strtolModel s = 0 := by
  have hsub : ∀ c ∈ s.dropWhile isSpaceC, ¬('0' ≤ c ∧ c ≤ '9') := by
    intro c hc
    exact h c ((List.dropWhile_sublist (l := s) (p := isSpaceC)).subset hc)
  have hrest : ∀ (c : Char) (rest : List Char), s.dropWhile isSpaceC = c :: rest →
      strtolDigits rest 0 = 0 := by
    intro c rest hd
    apply strtolDigits_of_head_not_digit
    intro d hd'
    cases rest with
    | nil => simp at hd'
    | cons d' r' =>
      simp only [List.head?_cons, Option.mem_some_iff] at hd'
      subst hd'
      exact hsub d' (hd ▸ by simp)
  unfold strtolModel
  cases hd : s.dropWhile isSpaceC with
  | nil => rfl
  | cons c rest =>
    have hc0 : strtolDigits (c :: rest) 0 = 0 := by
      apply strtolDigits_of_head_not_digit
      intro d hd'
      simp only [List.head?_cons, Option.mem_some_iff] at hd'
      subst hd'
      exact hsub c (hd ▸ by simp)
    simp only [hrest c rest hd, hc0, Nat.cast_zero, neg_zero, ite_self]

/-! ## Claim theorems -/

/-- C10: `jsmnreader_token_get_object` returns the index itself exactly
when the index is within the token count and the token there is an
Object, and 4294967295 (unsigned `-1`) otherwise; and
`jsmnreader_token_get_array` behaves identically with Array in place of
Object. Both are pure functions of the reader state alone (no path
machinery appears in their definitions and they return only the index). -/
theorem C10_token_get_object_array :
    ∀ (reader : Reader) (index : Nat),
      jsmnreader_token_get_object index reader =
        (if index < reader.tokens.length ∧ (tokGet reader.tokens index).type = JType.OBJECT
          then index else 4294967295) ∧
      jsmnreader_token_get_array index reader =
        (if index < reader.tokens.length ∧ (tokGet reader.tokens index).type = JType.ARRAY
          then index else 4294967295) := by
  intro reader index
  constructor
  · unfold jsmnreader_token_get_object
    by_cases h : index < reader.tokens.length ∧ (tokGet reader.tokens index).type = JType.OBJECT
    · rw [if_pos h, if_pos ⟨by omega, h.1, h.2⟩]
    · rw [if_neg h, if_neg (fun hc => h ⟨hc.2.1, hc.2.2⟩)]
  · unfold jsmnreader_token_get_array
    by_cases h : index < reader.tokens.length ∧ (tokGet reader.tokens index).type = JType.ARRAY
    · rw [if_pos h, if_pos ⟨by omega, h.1, h.2⟩]
    · rw [if_neg h, if_neg (fun hc => h ⟨hc.2.1, hc.2.2⟩)]

/-- C2: on an invalid scope — out of the token-sequence range, or a
token that is neither Object nor Array — `jsmnreader_tree_get_x`
actually returns 0, not the NotFound sentinel 4294967295 that its own
header comment and the spec promise: the `!in_offset` path of the C
source ends in `return 0;`. Shown on the loaded document `jsD1`, whose
token 1 is a String, with 99 out of range. -/
theorem C2_invalid_scope_returns_zero :
    rdD1.tokens.length = 3 ∧
    (tokGet rdD1.tokens 1).type = JType.STRING ∧
    jsmnreader_tree_get_x [] 1 rdD1 = 0 ∧
    jsmnreader_tree_get_x ("a".toList) 99 rdD1 = 0 ∧
    (0 : Nat) ≠ 4294967295 := by decide

/-- C5 counterexample: loading the value-less-key document `{"a":}`
returns `JSMN_SUCCESS` (0), not `JSMN_ERROR_INVAL` (-2): the parser
closes the object without ever checking that the key received a value. -/
theorem C5_counterexample :
    (jsmnreader_load jsD5a).1 = 0 ∧ (jsmnreader_load jsD5a).1 ≠ -2 := by decide

/-- C5 amended: `{"a":}` is accepted — the load succeeds with exactly
the object token and the key token — while the truncated `{"a":1` fails
with `JSMN_ERROR_PART` (Incomplete, -3). -/
theorem C5_amended_error_cases :
    (jsmnreader_load jsD5a).1 = 0 ∧
    (jsmnreader_load jsD5a).2.tokens =
      [⟨JType.OBJECT, 0, 6, 1⟩, ⟨JType.STRING, 2, 3, 0⟩] ∧
    (jsmnreader_load jsD5b).1 = -3 ∧
    (jsmnreader_load jsD5b).2.tokens = [] := by decide

/-- C6 counterexample: on `[1,2,x]` the sizing pass fails (illegal
character), the stale capacity 2 is used for the fill pass, which
aborts with `JSMN_ERROR_NOMEM` (-1) — and the reader is left holding 2
partially filled tokens from the failed parse, observable by a query
(`get_int` at index 1 returns 1, not the empty-state 0). -/
theorem C6_counterexample :
    (jsmnreader_load jsD6).1 = -1 ∧
    (jsmnreader_load jsD6).2.tokens.length = 2 ∧
    jsmnreader_token_get_int 1 (jsmnreader_load jsD6).2 = 1 := by decide

/-- C6 amended: after a load that fails with `JSMN_ERROR_INVAL` or
`JSMN_ERROR_PART` the reader's token sequence is empty, so no query can
observe tokens from the failed parse; the `JSMN_ERROR_NOMEM` case is
excluded (see `C6_counterexample`). -/
theorem C6_inval_part_reset :
    ∀ (js : List Char) (code : Int) (rd : Reader),
      jsmnreader_load js = (code, rd) → (code = -2 ∨ code = -3) →
      rd.tokens = [] ∧ (∀ i, jsmnreader_token_get_int i rd = 0) ∧
        (∀ i, jsmnreader_token_get_string i rd = []) := by
  intro js code rd h hc
  have hrd : rd.tokens = [] := by
    unfold jsmnreader_load at h
    split at h
    · injection h with h1 h2
      rcases hc with hc | hc <;> omega
    · split at h
      · injection h with h1 h2
        rw [← h2]
      · split at h
        · injection h with h1 h2
          rw [← h2]
        · split at h
          · injection h with h1 h2
            rcases hc with hc | hc <;> omega
          · injection h with h1 h2
            rcases hc with hc | hc <;> omega
  refine ⟨hrd, ?_, ?_⟩
  · intro i
    simp [jsmnreader_token_get_int, hrd]
  · intro i
    simp [jsmnreader_token_get_string, hrd]

/-- C6 witness: the truncated input `[` takes the Incomplete branch and
the reset is observable. -/
theorem C6_inval_part_reset_witness :
    (⟨"[".toList, []⟩ : Reader).tokens = [] ∧
    jsmnreader_token_get_int 0 (⟨"[".toList, []⟩ : Reader) = 0 ∧
    jsmnreader_token_get_string 0 (⟨"[".toList, []⟩ : Reader) = [] := by
  have h := C6_inval_part_reset ("[".toList) (-3) ⟨"[".toList, []⟩ (by decide) (Or.inr rfl)
  exact ⟨h.1, h.2.1 0, h.2.2 0⟩

/-- C8: enumerating the children of the Object parsed from
`{"a":1,"b":2}` yields the two key tokens under KEYONLY, the two value
tokens under ITEMONLY, and all four interleaved key-then-value in source
order under BOTH. -/
theorem C8_object_tokens_modes :
    jsmnreader_token_object_tokens 0 ObjRead.KEYONLY rdD8 = [1, 3] ∧
    jsmnreader_token_object_tokens 0 ObjRead.ITEMONLY rdD8 = [2, 4] ∧
    jsmnreader_token_object_tokens 0 ObjRead.BOTH rdD8 = [1, 2, 3, 4] ∧
    (tokGet rdD8.tokens 1).type = JType.STRING ∧
    (tokGet rdD8.tokens 2).type = JType.PRIMITIVE ∧
    (tokGet rdD8.tokens 3).type = JType.STRING ∧
    (tokGet rdD8.tokens 4).type = JType.PRIMITIVE := by decide

/-- C9: enumerating the children of the Array parsed from
`[1,{"x":1},[2,3],4]` yields exactly 4 indices, one per top-level
element in source order; the nested object and array are represented by
their own opening tokens (indices 2 and 5) and their internal tokens
(3, 4 and 6, 7) produce no entries. -/
theorem C9_array_tokens :
    jsmnreader_token_array_tokens 0 rdD9 = [1, 2, 5, 8] ∧
    (jsmnreader_token_array_tokens 0 rdD9).length = 4 ∧
    rdD9.tokens.length = 9 ∧
    (tokGet rdD9.tokens 2).type = JType.OBJECT ∧
    (tokGet rdD9.tokens 5).type = JType.ARRAY := by decide

/-- Fuel irrelevance for the extractor loop: any fuel above the span
length gives the same output. -/
theorem extractFuel_congr (txt : List Char) :
    ∀ (f f' r e : Nat), e - r < f → e - r < f' →
      extractFuel txt f r e = extractFuel txt f' r e := by
  intro f
  induction f with
  | zero => intro f' r e h _; exact absurd h (Nat.not_lt_zero _)
  | succ f ih =>
    intro f' r e h h'
    cases f' with
    | zero => exact absurd h' (Nat.not_lt_zero _)
    | succ f' =>
      simp only [extractFuel]
      by_cases hre : r < e
      · rw [if_pos hre, if_pos hre]
        by_cases hbs : chGet txt r ≠ '\\'
        · rw [if_pos hbs, if_pos hbs, ih f' (r + 1) e (by omega) (by omega)]
        · rw [if_neg hbs, if_neg hbs, ih f' (r + 2) e (by omega) (by omega)]
      · rw [if_neg hre, if_neg hre]

/-- C4 counterexample: on the document whose string value has source
text `a\nb`, `jsmnreader_token_get_string` returns `ab` — the `n` after
the backslash is dropped along with the backslash, not copied verbatim
as the claim states (which would give `anb`). -/
theorem C4_counterexample :
    (tokGet rdD4.tokens 2).type = JType.STRING ∧
    jsmnreader_token_get_string 2 rdD4 = ['a', 'b'] ∧
    jsmnreader_token_get_string 2 rdD4 ≠ ['a', 'n', 'b'] := by decide

/-- C4 amended: `get_string` extracts the token span with `\"` and `\\`
decoded to `"` and `\`; any other backslash-prefixed pair contributes
nothing to the output — the backslash and the character after it are
both dropped. Stated as the three per-character laws of the extraction
loop plus the accessor's use of it. -/
theorem C4_extract_escape_laws :
    (∀ (txt : List Char) (r e : Nat), r < e → chGet txt r ≠ '\\' →
      extractGo txt r e = chGet txt r :: extractGo txt (r + 1) e) ∧
    (∀ (txt : List Char) (r e : Nat), r < e → chGet txt r = '\\' →
      (chGet txt (r + 1) = '\\' ∨ chGet txt (r + 1) = '\"') →
      extractGo txt r e = chGet txt (r + 1) :: extractGo txt (r + 2) e) ∧
    (∀ (txt : List Char) (r e : Nat), r < e → chGet txt r = '\\' →
      ¬(chGet txt (r + 1) = '\\' ∨ chGet txt (r + 1) = '\"') →
      extractGo txt r e = extractGo txt (r + 2) e) ∧
    (∀ (reader : Reader) (index : Nat),
      0 < reader.tokens.length → index < reader.tokens.length →
      ((tokGet reader.tokens index).type = JType.STRING ∨
        (tokGet reader.tokens index).type = JType.PRIMITIVE) →
      jsmnreader_token_get_string index reader =
        extractGo reader.txt (tokGet reader.tokens index).start.toNat
          (tokGet reader.tokens index).end_.toNat) := by
  refine ⟨?_, ?_, ?_, ?_⟩
  · intro txt r e hre hc
    simp only [extractGo, extractFuel]
    rw [if_pos hre, if_pos hc]
    exact congrArg _ (extractFuel_congr txt e (e + 1) (r + 1) e (by omega) (by omega))
  · intro txt r e hre hc h2
    simp only [extractGo, extractFuel]
    rw [if_pos hre, if_neg (by simp [hc]), if_pos h2]
    exact congrArg _ (extractFuel_congr txt e (e + 1) (r + 2) e (by omega) (by omega))
  · intro txt r e hre hc h2
    simp only [extractGo, extractFuel]
    rw [if_pos hre, if_neg (by simp [hc]), if_neg h2]
    simp only [List.nil_append]
    exact extractFuel_congr txt e (e + 1) (r + 2) e (by omega) (by omega)
  · intro reader index h0 hi ht
    simp only [jsmnreader_token_get_string, tokText, jsmnreader_extract]
    rw [if_pos ⟨h0, hi, ht⟩]

/-- C4 amended witness: the three laws at concrete spans and the
accessor tie-in at a concrete reader. -/
theorem C4_extract_escape_laws_witness :
    extractGo ['a', 'b'] 0 2 = chGet ['a', 'b'] 0 :: extractGo ['a', 'b'] 1 2 ∧
    extractGo ['\\', '\\'] 0 2 = chGet ['\\', '\\'] 1 :: extractGo ['\\', '\\'] 2 2 ∧
    extractGo ['\\', 'n', 'b'] 0 3 = extractGo ['\\', 'n', 'b'] 2 3 ∧
    jsmnreader_token_get_string 0 (⟨['x'], [⟨JType.STRING, 0, 1, 0⟩]⟩ : Reader) =
      extractGo ['x'] 0 1 := by
  refine ⟨?_, ?_, ?_, ?_⟩
  · exact C4_extract_escape_laws.1 ['a', 'b'] 0 2 (by decide) (by decide)
  · exact C4_extract_escape_laws.2.1 ['\\', '\\'] 0 2 (by decide) (by decide) (by decide)
  · exact C4_extract_escape_laws.2.2.1 ['\\', 'n', 'b'] 0 3 (by decide) (by decide) (by decide)
  · exact C4_extract_escape_laws.2.2.2 ⟨['x'], [⟨JType.STRING, 0, 1, 0⟩]⟩ 0 (by decide)
      (by decide) (by decide)

/-- C3 counterexample: in `jsD3a` the key `a` (token 1) matches the
first path segment of `a\b` and its value (token 2) is an Array, with
one more segment remaining — yet the walk halts with no result instead
of descending, and the whole lookup yields NotFound, while the Object
analogue `jsD3c` descends and finds token 4. -/
theorem C3_counterexample :
    (tokGet rdD3a.tokens 2).type = JType.ARRAY ∧
    2 < rdD3a.tokens.length ∧
    treeStep rdD3a [['a'], ['b']] ⟨1, 0, 0, 1⟩ = StepRes.halt none ∧
    jsmnreader_tree_get_x ("a\\b".toList) 0 rdD3a = 4294967295 ∧
    jsmnreader_tree_get_x ("a\\b".toList) 0 rdD3c = 4 := by decide

/-- C3 amended: when the current segment matches a key whose value is
an Object and more segments remain, the walk descends — the scope
becomes that container, the segment cursor advances by one, and
scanning continues from the container's first child; when the matched
value is an Array and more segments remain, the walk instead halts
immediately with no result (NotFound). -/
theorem C3_descend_object_only :
    (∀ (reader : Reader) (plist : List (List Char)) (st : TState),
      (tokGet reader.tokens (st.r + 1)).type = JType.OBJECT →
      treeSelected reader plist st = true →
      st.i ≠ plist.length - 1 →
      treeStep reader plist st =
        StepRes.cont ⟨st.r + 2, st.i + 1, st.r + 1, (tokGet reader.tokens (st.r + 1)).size⟩) ∧
    (∀ (reader : Reader) (plist : List (List Char)) (st : TState),
      (tokGet reader.tokens (st.r + 1)).type = JType.ARRAY →
      treeSelected reader plist st = true →
      st.i ≠ plist.length - 1 →
      treeStep reader plist st = StepRes.halt none) := by
  constructor
  · intro reader plist st htype hsel hi
    have hlt : st.i < plist.length := (of_decide_eq_true hsel).2.1
    simp only [treeStep, htype, hsel, if_true]
    rw [if_neg hi, if_neg (by omega)]
  · intro reader plist st htype hsel hi
    simp only [treeStep, htype, hsel, if_true]
    rw [if_neg hi]

/-- C3 amended witness: the Object descent on `rdD3c` and the Array
halt on `rdD3a`, at the concrete state reached after matching key `a`. -/
theorem C3_descend_object_only_witness :
    treeStep rdD3c [['a'], ['b']] ⟨1, 0, 0, 1⟩ = StepRes.cont ⟨3, 1, 2, 1⟩ ∧
    treeStep rdD3a [['a'], ['b']] ⟨1, 0, 0, 1⟩ = StepRes.halt none := by
  constructor
  · exact (C3_descend_object_only.1 rdD3c [['a'], ['b']] ⟨1, 0, 0, 1⟩ (by decide) (by decide)
      (by decide)).trans (by decide)
  · exact C3_descend_object_only.2 rdD3a [['a'], ['b']] ⟨1, 0, 0, 1⟩ (by decide) (by decide)
      (by decide)

/-- The `long` → `int` narrowing is the identity on the `int` range. -/
theorem wrapInt32_of_int_range (n : Int) (h1 : -2147483648 ≤ n) (h2 : n < 2147483648) :
    wrapInt32 n = n := by
  unfold wrapInt32
  omega

/-- `strtol`'s saturation does not fire inside the `int` range. -/
theorem strtolLongC_of_int_range (s : List Char) (h1 : -2147483648 ≤ strtolModel s)
    (h2 : strtolModel s < 2147483648) : strtolLongC s = strtolModel s := by
  unfold strtolLongC
  rw [if_neg (by omega), if_neg (by omega)]

/-- C7: on a Primitive token, `get_int` yields 1 for text `true`, 0 for
`false`, -5 for `-5`; in general it is the platform base-10 conversion
of the extracted text — `strtol` with `long` saturation narrowed to
`int` by two's-complement wrap — which is exactly the read value
whenever that value fits in `int`, pins 705032704 for the out-of-range
literal `5000000000` (LP64), and yields 0 on digit-free text other
than `true`. -/
theorem C7_get_int_values :
    ∀ (reader : Reader) (index : Nat),
      0 < reader.tokens.length → index < reader.tokens.length →
      (tokGet reader.tokens index).type = JType.PRIMITIVE →
      (tokText reader index = "true".toList → jsmnreader_token_get_int index reader = 1) ∧
      (tokText reader index = "false".toList → jsmnreader_token_get_int index reader = 0) ∧
      (tokText reader index = "-5".toList → jsmnreader_token_get_int index reader = -5) ∧
      (tokText reader index = "5000000000".toList →
        jsmnreader_token_get_int index reader = 705032704) ∧
      (tokText reader index ≠ "true".toList →
        jsmnreader_token_get_int index reader =
          wrapInt32 (strtolLongC (tokText reader index))) ∧
      (tokText reader index ≠ "true".toList →
        -2147483648 ≤ strtolModel (tokText reader index) →
        strtolModel (tokText reader index) < 2147483648 →
        jsmnreader_token_get_int index reader = strtolModel (tokText reader index)) ∧
      (tokText reader index ≠ "true".toList →
        (∀ c ∈ tokText reader index, ¬('0' ≤ c ∧ c ≤ '9')) →
        jsmnreader_token_get_int index reader = 0) := by
  intro reader index h0 hi ht
  have hguard : 0 < reader.tokens.length ∧ index < reader.tokens.length ∧
      (tokGet reader.tokens index).type = JType.PRIMITIVE := ⟨h0, hi, ht⟩
  refine ⟨?_, ?_, ?_, ?_, ?_, ?_, ?_⟩
  · intro hr
    simp only [jsmnreader_token_get_int]
    rw [if_pos hguard, if_pos hr]
  · intro hr
    simp only [jsmnreader_token_get_int]
    rw [if_pos hguard, hr]
    decide
  · intro hr
    simp only [jsmnreader_token_get_int]
    rw [if_pos hguard, hr]
    decide
  · intro hr
    simp only [jsmnreader_token_get_int]
    rw [if_pos hguard, hr]
    decide
  · intro hne
    simp only [jsmnreader_token_get_int]
    rw [if_pos hguard, if_neg hne]
  · intro hne hlo hhi
    simp only [jsmnreader_token_get_int]
    rw [if_pos hguard, if_neg hne, strtolLongC_of_int_range _ hlo hhi,
      wrapInt32_of_int_range _ hlo hhi]
  · intro hne hnd
    simp only [jsmnreader_token_get_int]
    rw [if_pos hguard, if_neg hne]
    have hz := strtolModel_no_digits _ hnd
    rw [strtolLongC_of_int_range _ (by omega) (by omega), hz]
    decide

/-- C7 witness: the five texts on the concrete reader `rdC7`, plus the
in-range exactness instance at text `-5`. -/
theorem C7_get_int_values_witness :
    jsmnreader_token_get_int 0 rdC7 = 1 ∧
    jsmnreader_token_get_int 1 rdC7 = 0 ∧
    jsmnreader_token_get_int 2 rdC7 = -5 ∧
    jsmnreader_token_get_int 3 rdC7 = 0 ∧
    jsmnreader_token_get_int 4 rdC7 = 705032704 ∧
    jsmnreader_token_get_int 2 rdC7 = strtolModel (tokText rdC7 2) := by
  refine ⟨?_, ?_, ?_, ?_, ?_, ?_⟩
  · exact (C7_get_int_values rdC7 0 (by decide) (by decide) (by decide)).1 (by decide)
  · exact (C7_get_int_values rdC7 1 (by decide) (by decide) (by decide)).2.1 (by decide)
  · exact (C7_get_int_values rdC7 2 (by decide) (by decide) (by decide)).2.2.1 (by decide)
  · exact (C7_get_int_values rdC7 3 (by decide) (by decide) (by decide)).2.2.2.2.2.2
      (by decide) (by decide)
  · exact (C7_get_int_values rdC7 4 (by decide) (by decide) (by decide)).2.2.2.1 (by decide)
  · exact (C7_get_int_values rdC7 2 (by decide) (by decide) (by decide)).2.2.2.2.2.1
      (by decide) (by decide) (by decide)

theorem bumpSize_length (toks : List Tok) (i : Nat) : (bumpSize toks i).length = toks.length := by
  simp [bumpSize]

theorem setEnd_length (toks : List Tok) (i : Nat) (e : Int) :
    (setEnd toks i e).length = toks.length := by
  simp [setEnd]

theorem scanStrFuel_error_neg (js : List Char) :
    ∀ (fuel p : Nat) (e : Int), scanStrFuel js fuel p = Except.error e → e < 0 := by
  intro fuel
  induction fuel with
  | zero =>
    intro p e h
    simp only [scanStrFuel, Except.error.injEq] at h
    omega
  | succ fuel ih =>
    intro p e h
    simp only [scanStrFuel] at h
    by_cases hg : p < js.length ∧ chGet js p ≠ '\x00'
    · rw [if_pos hg] at h
      by_cases hq : chGet js p = '\"'
      · rw [if_pos hq] at h
        exact absurd h (by simp)
      · rw [if_neg hq] at h
        by_cases hbs : chGet js p = '\\' ∧ p + 1 < js.length
        · rw [if_pos hbs] at h
          by_cases hesc : chGet js (p + 1) = '\"' ∨ chGet js (p + 1) = '/' ∨
              chGet js (p + 1) = '\\' ∨ chGet js (p + 1) = 'b' ∨ chGet js (p + 1) = 'f' ∨
              chGet js (p + 1) = 'r' ∨ chGet js (p + 1) = 'n' ∨ chGet js (p + 1) = 't'
          · rw [if_pos hesc] at h
            exact ih _ _ h
          · rw [if_neg hesc] at h
            by_cases hu : chGet js (p + 1) = 'u'
            · rw [if_pos hu] at h
              cases hx : scanHex js (p + 2) 4 with
              | none =>
                rw [hx] at h
                simp only [Except.error.injEq] at h
                omega
              | some k =>
                rw [hx] at h
                exact ih _ _ h
            · rw [if_neg hu] at h
              simp only [Except.error.injEq] at h
              omega
        · rw [if_neg hbs] at h
          exact ih _ _ h
    · rw [if_neg hg] at h
      simp only [Except.error.injEq] at h
      omega

theorem scanPrimFuel_error_neg (js : List Char) :
    ∀ (fuel p : Nat) (e : Int), scanPrimFuel js fuel p = Except.error e → e < 0 := by
  intro fuel
  induction fuel with
  | zero =>
    intro p e h
    simp only [scanPrimFuel, Except.error.injEq] at h
    omega
  | succ fuel ih =>
    intro p e h
    simp only [scanPrimFuel] at h
    by_cases hg : p < js.length ∧ chGet js p ≠ '\x00'
    · rw [if_pos hg] at h
      by_cases hsep : chGet js p = '\t' ∨ chGet js p = '\r' ∨ chGet js p = '\n' ∨
          chGet js p = ' ' ∨ chGet js p = ',' ∨ chGet js p = ']' ∨ chGet js p = '\x7d'
      · rw [if_pos hsep] at h
        exact absurd h (by simp)
      · rw [if_neg hsep] at h
        by_cases hbad : (chGet js p).toNat < 32 ∨ 127 ≤ (chGet js p).toNat
        · rw [if_pos hbad] at h
          simp only [Except.error.injEq] at h
          omega
        · rw [if_neg hbad] at h
          exact ih _ _ h
    · rw [if_neg hg] at h
      simp only [Except.error.injEq] at h
      omega

theorem scanStrGo_error_neg (js : List Char) (p : Nat) (e : Int)
    (h : scanStrGo js p = Except.error e) : e < 0 :=
  scanStrFuel_error_neg js _ _ _ h

theorem scanPrimGo_error_neg (js : List Char) (p : Nat) (e : Int)
    (h : scanPrimGo js p = Except.error e) : e < 0 :=
  scanPrimFuel_error_neg js _ _ _ h

theorem condBump_length (P : Prop) [Decidable P] (x : List Tok) (i : Nat) :
    (if P then bumpSize x i else x).length = x.length := by
  split <;> simp [bumpSize_length]

/-- Core refinement: whenever the fill-mode loop succeeds, its return
value is the number of tokens it holds, the token list only grew, and
the counting loop (same fuel, same position) returns the running count
plus the number of tokens the fill run added. -/
theorem fill_count_agree (js : List Char) (cap : Nat) :
    ∀ (fuel pos : Nat) (super : Int) (toks : List Tok),
      0 ≤ (fillLoop js cap fuel pos super toks).1 →
      (fillLoop js cap fuel pos super toks).1 =
        ((fillLoop js cap fuel pos super toks).2.length : Int) ∧
      toks.length ≤ (fillLoop js cap fuel pos super toks).2.length ∧
      ∀ cnt : Nat, countLoop js fuel pos cnt =
        (cnt : Int) + (fillLoop js cap fuel pos super toks).2.length - toks.length := by
  intro fuel
  induction fuel with
  | zero =>
    intro pos super toks h
    simp [fillLoop] at h
  | succ fuel ih =>
    intro pos super toks h
    by_cases hg : pos < js.length ∧ chGet js pos ≠ '\x00'
    case neg =>
      simp only [fillLoop, countLoop, if_neg hg] at h ⊢
      by_cases hopen : toks.any tokIsOpen
      · rw [if_pos hopen] at h
        simp at h
      · rw [if_neg hopen]
        refine ⟨rfl, le_refl _, ?_⟩
        intro cnt
        ring
    case pos =>
      cases hcc : cclass (chGet js pos) with
      | openB isObj =>
        simp only [fillLoop, countLoop, if_pos hg, hcc] at h ⊢
        by_cases hcap : cap ≤ toks.length
        · rw [if_pos hcap] at h
          simp at h
        · rw [if_neg hcap] at h ⊢
          by_cases hsup : 0 ≤ super ∧ (tokGet toks super.toNat).type = JType.OBJECT
          · rw [if_pos hsup] at h
            simp at h
          · rw [if_neg hsup] at h ⊢
            have hlen : ((if 0 ≤ super then bumpSize toks super.toNat else toks) ++
                [Tok.mk (if isObj = true then JType.OBJECT else JType.ARRAY) (pos : Int) (-1) 0]).length =
                toks.length + 1 := by
              split <;> simp [bumpSize_length]
            obtain ⟨ih1, ih2, ih3⟩ := ih (pos + 1) (toks.length : Int) _ h
            refine ⟨ih1, ?_, ?_⟩
            · rw [hlen] at ih2
              omega
            · intro cnt
              rw [ih3 (cnt + 1), hlen]
              push_cast
              ring
      | closeB isObj =>
        simp only [fillLoop, countLoop, if_pos hg, hcc] at h ⊢
        cases hlo : lastOpenAt toks (toks.length - 1) with
        | none =>
          simp only [hlo] at h
          simp at h
        | some i =>
          simp only [hlo] at h ⊢
          by_cases htyp : (tokGet toks i).type ≠ (if isObj = true then JType.OBJECT else JType.ARRAY)
          · rw [if_pos htyp] at h
            simp at h
          · rw [if_neg htyp] at h ⊢
            obtain ⟨ih1, ih2, ih3⟩ := ih (pos + 1) _ _ h
            refine ⟨ih1, ?_, ?_⟩
            · rw [setEnd_length] at ih2
              omega
            · intro cnt
              rw [ih3 cnt, setEnd_length]
      | quoteC =>
        simp only [fillLoop, countLoop, if_pos hg, hcc] at h ⊢
        cases hs : scanStrGo js (pos + 1) with
        | error e =>
          simp only [hs] at h
          have hneg := scanStrGo_error_neg js (pos + 1) e hs
          omega
        | ok q =>
          simp only [hs] at h ⊢
          by_cases hcap : cap ≤ toks.length
          · rw [if_pos hcap] at h
            simp at h
          · rw [if_neg hcap] at h ⊢
            obtain ⟨ih1, ih2, ih3⟩ := ih (q + 1) super _ h
            refine ⟨ih1, ?_, ?_⟩
            · rw [condBump_length] at ih2
              simp only [List.length_append, List.length_cons, List.length_nil] at ih2
              omega
            · intro cnt
              rw [ih3 (cnt + 1), condBump_length]
              simp only [List.length_append, List.length_cons, List.length_nil]
              push_cast
              ring
      | wsC =>
        simp only [fillLoop, countLoop, if_pos hg, hcc] at h ⊢
        exact ih (pos + 1) super toks h
      | colonC =>
        simp only [fillLoop, countLoop, if_pos hg, hcc] at h ⊢
        exact ih (pos + 1) _ toks h
      | commaC =>
        simp only [fillLoop, countLoop, if_pos hg, hcc] at h ⊢
        exact ih (pos + 1) _ toks h
      | primC =>
        simp only [fillLoop, countLoop, if_pos hg, hcc] at h ⊢
        by_cases hviol : 0 ≤ super ∧ ((tokGet toks super.toNat).type = JType.OBJECT ∨
            ((tokGet toks super.toNat).type = JType.STRING ∧ (tokGet toks super.toNat).size ≠ 0))
        · rw [if_pos hviol] at h
          simp at h
        · rw [if_neg hviol] at h ⊢
          cases hp : scanPrimGo js pos with
          | error e =>
            simp only [hp] at h
            have hneg := scanPrimGo_error_neg js pos e hp
            omega
          | ok q =>
            simp only [hp] at h ⊢
            by_cases hcap : cap ≤ toks.length
            · rw [if_pos hcap] at h
              simp at h
            · rw [if_neg hcap] at h ⊢
              obtain ⟨ih1, ih2, ih3⟩ := ih q super _ h
              refine ⟨ih1, ?_, ?_⟩
              · rw [condBump_length] at ih2
                simp only [List.length_append, List.length_cons, List.length_nil] at ih2
                omega
              · intro cnt
                rw [ih3 (cnt + 1), condBump_length]
                simp only [List.length_append, List.length_cons, List.length_nil]
                push_cast
                ring
      | badC =>
        simp only [fillLoop, countLoop, if_pos hg, hcc] at h ⊢
        simp at h

/-- Capacity monotonicity: a successful fill run is reproduced verbatim
by any capacity at least the number of tokens it produced. -/
theorem fill_cap_mono (js : List Char) (cap : Nat) :
    ∀ (fuel pos : Nat) (super : Int) (toks : List Tok),
      0 ≤ (fillLoop js cap fuel pos super toks).1 →
      ∀ cap' : Nat, (fillLoop js cap fuel pos super toks).2.length ≤ cap' →
      fillLoop js cap' fuel pos super toks = fillLoop js cap fuel pos super toks := by
  intro fuel
  induction fuel with
  | zero =>
    intro pos super toks h
    simp [fillLoop] at h
  | succ fuel ih =>
    intro pos super toks h cap' hcap'
    by_cases hg : pos < js.length ∧ chGet js pos ≠ '\x00'
    case neg =>
      simp only [fillLoop, if_neg hg]
    case pos =>
      cases hcc : cclass (chGet js pos) with
      | openB isObj =>
        simp only [fillLoop, if_pos hg, hcc] at h hcap' ⊢
        by_cases hc : cap ≤ toks.length
        · rw [if_pos hc] at h
          simp at h
        · rw [if_neg hc] at h hcap'
          by_cases hsup : 0 ≤ super ∧ (tokGet toks super.toNat).type = JType.OBJECT
          · rw [if_pos hsup] at h
            simp at h
          · rw [if_neg hsup] at h hcap'
            have h2 := (fill_count_agree js cap fuel (pos + 1) (toks.length : Int) _ h).2.1
            simp only [List.length_append, condBump_length, List.length_cons,
              List.length_nil] at h2
            have hlt : ¬ cap' ≤ toks.length := by omega
            conv_lhs => rw [if_neg hlt, if_neg hsup]
            conv_rhs => rw [if_neg hc, if_neg hsup]
            exact ih (pos + 1) _ _ h cap' hcap'
      | closeB isObj =>
        simp only [fillLoop, if_pos hg, hcc] at h hcap' ⊢
        cases hlo : lastOpenAt toks (toks.length - 1) with
        | none =>
          simp only [hlo] at h
          simp at h
        | some i =>
          simp only [hlo] at h hcap' ⊢
          by_cases htyp : (tokGet toks i).type ≠ (if isObj = true then JType.OBJECT else JType.ARRAY)
          · rw [if_pos htyp] at h
            simp at h
          · rw [if_neg htyp] at h hcap'
            conv_lhs => rw [if_neg htyp]
            conv_rhs => rw [if_neg htyp]
            exact ih (pos + 1) _ _ h cap' hcap'
      | quoteC =>
        simp only [fillLoop, if_pos hg, hcc] at h hcap' ⊢
        cases hs : scanStrGo js (pos + 1) with
        | error e =>
          simp only [hs] at h
          have hneg := scanStrGo_error_neg js (pos + 1) e hs
          omega
        | ok q =>
          simp only [hs] at h hcap' ⊢
          by_cases hc : cap ≤ toks.length
          · rw [if_pos hc] at h
            simp at h
          · rw [if_neg hc] at h hcap'
            have h2 := (fill_count_agree js cap fuel (q + 1) super _ h).2.1
            simp only [condBump_length, List.length_append, List.length_cons,
              List.length_nil] at h2
            have hlt : ¬ cap' ≤ toks.length := by omega
            conv_lhs => rw [if_neg hlt]
            conv_rhs => rw [if_neg hc]
            exact ih (q + 1) _ _ h cap' hcap'
      | wsC =>
        simp only [fillLoop, if_pos hg, hcc] at h hcap' ⊢
        exact ih (pos + 1) super toks h cap' hcap'
      | colonC =>
        simp only [fillLoop, if_pos hg, hcc] at h hcap' ⊢
        exact ih (pos + 1) _ toks h cap' hcap'
      | commaC =>
        simp only [fillLoop, if_pos hg, hcc] at h hcap' ⊢
        exact ih (pos + 1) _ toks h cap' hcap'
      | primC =>
        simp only [fillLoop, if_pos hg, hcc] at h hcap' ⊢
        by_cases hviol : 0 ≤ super ∧ ((tokGet toks super.toNat).type = JType.OBJECT ∨
            ((tokGet toks super.toNat).type = JType.STRING ∧ (tokGet toks super.toNat).size ≠ 0))
        · rw [if_pos hviol] at h
          simp at h
        · rw [if_neg hviol] at h hcap'
          conv_lhs => rw [if_neg hviol]
          conv_rhs => rw [if_neg hviol]
          cases hp : scanPrimGo js pos with
          | error e =>
            simp only [hp] at h
            have hneg := scanPrimGo_error_neg js pos e hp
            omega
          | ok q =>
            simp only [hp] at h hcap' ⊢
            by_cases hc : cap ≤ toks.length
            · rw [if_pos hc] at h
              simp at h
            · rw [if_neg hc] at h hcap'
              have h2 := (fill_count_agree js cap fuel q super _ h).2.1
              simp only [condBump_length, List.length_append, List.length_cons,
                List.length_nil] at h2
              have hlt : ¬ cap' ≤ toks.length := by omega
              conv_lhs => rw [if_neg hlt]
              conv_rhs => rw [if_neg hc]
              exact ih q _ _ h cap' hcap'
      | badC =>
        simp only [fillLoop, if_pos hg, hcc] at h
        simp at h

/-- C1: for every buffer on which a fill-mode `jsmn_parse` run succeeds
(in particular every syntactically valid JSON input), the sizing-mode
run returns exactly the number of tokens the fill run produced, and any
fill-mode run with at least that many preallocated tokens returns the
same count and the identical token records (type, start, end, size) —
the two-pass protocol of `jsmnreader_load` is consistent. -/
theorem C1_sizing_refines_fill :
    ∀ (js : List Char) (cap : Nat) (code : Int) (toks : List Tok),
      jsmn_parse_fill js cap = (code, toks) → 0 ≤ code →
      jsmn_parse_count js = (toks.length : Int) ∧ code = (toks.length : Int) ∧
      ∀ cap' : Nat, toks.length ≤ cap' → jsmn_parse_fill js cap' = (code, toks) := by
  intro js cap code toks h hpos
  have h0 : 0 ≤ (fillLoop js cap (js.length + 1) 0 (-1) []).1 := by
    rw [show fillLoop js cap (js.length + 1) 0 (-1) [] = jsmn_parse_fill js cap from rfl, h]
    exact hpos
  obtain ⟨g1, g2, g3⟩ := fill_count_agree js cap (js.length + 1) 0 (-1) [] h0
  refine ⟨?_, ?_, ?_⟩
  · unfold jsmn_parse_count
    rw [g3 0]
    rw [show fillLoop js cap (js.length + 1) 0 (-1) [] = jsmn_parse_fill js cap from rfl, h]
    simp
  · rw [show fillLoop js cap (js.length + 1) 0 (-1) [] = jsmn_parse_fill js cap from rfl, h] at g1
    simpa using g1
  · intro cap' hc'
    have hm := fill_cap_mono js cap (js.length + 1) 0 (-1) [] h0 cap' (by
      rw [show fillLoop js cap (js.length + 1) 0 (-1) [] = jsmn_parse_fill js cap from rfl, h]
      exact hc')
    unfold jsmn_parse_fill
    rw [hm]
    exact h

/-- C1 witness: the two passes agree on the concrete document `jsD1`,
which needs 3 tokens. -/
theorem C1_sizing_refines_fill_witness :
    jsmn_parse_count jsD1 = 3 ∧
    jsmn_parse_fill jsD1 10 =
      ((3 : Int), [⟨JType.OBJECT, 0, 7, 1⟩, ⟨JType.STRING, 2, 3, 1⟩,
        ⟨JType.PRIMITIVE, 5, 6, 0⟩]) := by
  have h := C1_sizing_refines_fill jsD1 3 3
    [⟨JType.OBJECT, 0, 7, 1⟩, ⟨JType.STRING, 2, 3, 1⟩, ⟨JType.PRIMITIVE, 5, 6, 0⟩]
    (by decide) (by decide)
  exact ⟨h.1.trans (by decide), h.2.2 10 (by decide)⟩
